import Mathlib

/-!
Shallow embedding of the session execution engine of adk-agent-sim:
the session state machine (models/session.py), the history entry model
(models/history.py), the tool execution engine (execution/tool_runner.py),
the simulation controller (controller.py) and the golden-trace exporter
(export/golden_trace.py).

Modelling conventions:
* Python values flowing through tool arguments/results are a closed
  universe PyVal (floats are omitted: the serializer treats them exactly
  like the other primitive scalars, and float arithmetic never occurs).
* Wall-clock readings are Nat milliseconds supplied as explicit
  parameters; the source multiplies a seconds float by 1000.
* call_id is uuid4 in the source; it is modelled by a fresh Nat counter
  on the controller, which realises the collision-freedom the source
  obtains from uuid4.
* Exceptions become an Except value or an explicit outcome datatype; the
  tool provider call (tool.run_async together with context construction)
  is external, so its behaviour is an input (ProviderOutcome).
* Operations are modelled in state-threading style: every controller
  operation returns its (possibly error) outcome together with the
  controller after the call, so claims about what an aborted call left
  behind are real statements, mirroring source statement order.
-/

namespace AdkAgentSim

/-- Closed universe of Python values used in tool arguments and results. -/
inductive PyVal where
  | none
  | bool (b : Bool)
  | int (n : Int)
  | str (s : String)
  | list (xs : List PyVal)
  | tuple (xs : List PyVal)
  | dict (kvs : List (String × PyVal))
  | obj (dump : Option (List (String × PyVal))) (strForm : String)

/-- SessionState from models/session.py. -/
inductive SessionState where
  | selectingAgent
  | awaitingQuery
  | active
  | completed
deriving DecidableEq, Repr

/-- HistoryEntry variants from models/history.py (timestamps omitted:
wall-clock fields that no claim depends on). -/
inductive HistoryEntry where
  | userQuery (content : String)
  | toolCall (toolName : String) (arguments : List (String × PyVal)) (callId : Nat)
  | toolOutput (callId : Nat) (result : PyVal) (durationMs : Nat)
  | toolError (callId : Nat) (errorType : String) (errorMessage : String)
      (traceback : Option String) (durationMs : Nat)
  | finalResponse (content : String)

/-- A tool handle: the only observable the core uses is its name (the
run capability is modelled by the per-call ProviderOutcome input). -/
structure Tool where
  name : String
deriving DecidableEq, Repr

/-- SimulationSession from models/session.py. The opaque agent object
and the ADK context handles are omitted; start_timestamp is kept as a
Nat clock reading. -/
structure SimulationSession where
  sessionId : String
  agentName : String
  tools : List Tool
  state : SessionState
  history : List HistoryEntry
  startTimestamp : Nat

/-- Error taxonomy of the spec; the source raises ValueError/KeyError
with messages naming these conditions. -/
inductive SimError where
  | stateViolation (required actual : SessionState)
  | notFound (name : String)
  | noSession
deriving DecidableEq, Repr

/-- SimulationSession.select_agent. -/
def SimulationSession.selectAgent (s : SimulationSession) (name : String)
    (tools : List Tool) : Except SimError SimulationSession :=
  if s.state ≠ SessionState.selectingAgent then
    Except.error (SimError.stateViolation SessionState.selectingAgent s.state)
  else
    Except.ok { s with agentName := name, tools := tools,
                       state := SessionState.awaitingQuery }

/-- SimulationSession.start_session (tNow is the wall clock read). -/
def SimulationSession.startSession (s : SimulationSession) (tNow : Nat) :
    Except SimError SimulationSession :=
  if s.state ≠ SessionState.awaitingQuery then
    Except.error (SimError.stateViolation SessionState.awaitingQuery s.state)
  else
    Except.ok { s with state := SessionState.active, startTimestamp := tNow }

/-- SimulationSession.complete_session. -/
def SimulationSession.completeSession (s : SimulationSession) :
    Except SimError SimulationSession :=
  if s.state ≠ SessionState.active then
    Except.error (SimError.stateViolation SessionState.active s.state)
  else
    Except.ok { s with state := SessionState.completed }

/-- SimulationSession.get_tool_by_name: first tool with a matching name. -/
def SimulationSession.getToolByName (s : SimulationSession) (name : String) :
    Option Tool :=
  s.tools.find? (fun t => t.name == name)

/-- ExecutionResult from execution/tool_runner.py. The raw exception
object field is unrepresentable and is carried only through its
classification (errorType/errorMessage/errorTraceback). -/
structure ExecutionResult where
  success : Bool
  result : Option PyVal := Option.none
  errorType : Option String := Option.none
  errorMessage : Option String := Option.none
  errorTraceback : Option String := Option.none
  durationMs : Nat := 0
  cancelled : Bool := false

/-- Behaviour of the awaited tool-provider call (context construction
plus tool.run_async): it returns a value, is cancelled, or raises. -/
inductive ProviderOutcome where
  | normal (value : PyVal)
  | cancelled
  | failure (errorType : String) (errorMessage : String) (traceback : Option String)

/-- ToolRunner state from execution/tool_runner.py; the asyncio task
reference is opaque, only its presence is modelled. -/
structure ToolRunner where
  currentTask : Option Unit := Option.none
  startTime : Nat := 0
  isRunning : Bool := false
deriving DecidableEq, Repr

/-- ToolRunner.elapsed_ms: milliseconds since start (0 when idle). -/
def ToolRunner.elapsedMs (r : ToolRunner) (now : Nat) : Nat :=
  if ¬ r.isRunning then 0 else now - r.startTime

/-- ToolRunner.execute: t0 is the clock on entry, t1 the clock at the
exit point. The try body sets the running state and the current task;
the three return paths classify the outcome; the finally block clears
the running flag and the task on every path. -/
def ToolRunner.execute (_r : ToolRunner) (outcome : ProviderOutcome)
    (t0 t1 : Nat) : ExecutionResult × ToolRunner :=
  let running : ToolRunner :=
    { currentTask := Option.some (), startTime := t0, isRunning := true }
  let result : ExecutionResult :=
    match outcome with
    | ProviderOutcome.normal v =>
        { success := true, result := Option.some v, durationMs := t1 - t0 }
    | ProviderOutcome.cancelled =>
        { success := false, durationMs := t1 - t0, cancelled := true,
          errorMessage := Option.some "Tool execution was cancelled" }
    | ProviderOutcome.failure et em tb =>
        { success := false, errorType := Option.some et,
          errorMessage := Option.some em, errorTraceback := tb,
          durationMs := t1 - t0 }
  (result, { running with isRunning := false, currentTask := Option.none })

/-- ToolRunner.cancel: signals the task if one is present; the effect on
the awaited call is external and surfaces as ProviderOutcome.cancelled. -/
def ToolRunner.cancel (r : ToolRunner) : ToolRunner := r

/-- Python "x or default" on an optional string (None and "" are falsy). -/
def pyOrString (x : Option String) (d : String) : String :=
  match x with
  | Option.none => d
  | Option.some s => if s = "" then d else s

/-- SimulationController state from controller.py. The agents dict maps a
name to the tool list that agent.canonical_tools() yields for it (the
agent object itself is opaque). The _tool_declarations UI cache is not
modelled (no claim touches it). nextCallId is the fresh call_id counter
(see the module conventions). -/
structure SimulationController where
  agents : List (String × List Tool)
  session : Option SimulationSession
  toolRunner : ToolRunner
  nextCallId : Nat

/-- SimulationController.create_session: fresh session in SELECTING_AGENT.
The uuid4 session_id is modelled as the empty string. -/
def SimulationController.createSession (c : SimulationController) :
    SimulationController :=
  let fresh : SimulationSession :=
    { sessionId := "", agentName := "", tools := [],
      state := SessionState.selectingAgent, history := [],
      startTimestamp := 0 }
  { c with session := Option.some fresh }

/-- SimulationController.select_agent. Source order: no-session check,
agent-name lookup (KeyError → NotFound), canonical_tools (modelled by
the registry lookup result), then SimulationSession.select_agent, which
performs the state check. -/
def SimulationController.selectAgentRun (c : SimulationController)
    (agentName : String) : Except SimError Unit × SimulationController :=
  match c.session with
  | Option.none => (Except.error SimError.noSession, c)
  | Option.some s =>
    match c.agents.find? (fun p => p.1 == agentName) with
    | Option.none => (Except.error (SimError.notFound agentName), c)
    | Option.some p =>
      match s.selectAgent agentName p.2 with
      | Except.error e => (Except.error e, c)
      | Except.ok s1 => (Except.ok (), { c with session := Option.some s1 })

/-- SimulationController.start_session: state check, then append the
UserQuery entry, then SimulationSession.start_session. The structured
query is already normalised to text (the source stringifies dicts). -/
def SimulationController.startSessionRun (c : SimulationController)
    (query : String) (tNow : Nat) :
    Except SimError Unit × SimulationController :=
  match c.session with
  | Option.none => (Except.error SimError.noSession, c)
  | Option.some s =>
    if s.state ≠ SessionState.awaitingQuery then
      (Except.error (SimError.stateViolation SessionState.awaitingQuery s.state), c)
    else
      let s1 := { s with history := s.history ++ [HistoryEntry.userQuery query] }
      match s1.startSession tNow with
      | Except.error e => (Except.error e, { c with session := Option.some s1 })
      | Except.ok s2 => (Except.ok (), { c with session := Option.some s2 })

/-- Terminal history entry the controller appends for an ExecutionResult:
ToolOutput on success, otherwise ToolError (with the Python
"or"-defaults on the error fields). -/
def terminalEntryFor (callId : Nat) (r : ExecutionResult) : HistoryEntry :=
  if r.success then
    HistoryEntry.toolOutput callId (r.result.getD PyVal.none) r.durationMs
  else
    HistoryEntry.toolError callId (pyOrString r.errorType "Unknown")
      (pyOrString r.errorMessage "Unknown error") r.errorTraceback r.durationMs

/-- SimulationController.execute_tool. Source order: no-session check,
ACTIVE check, tool lookup (NotFound), append ToolCall (minting call_id),
run the engine, append exactly one terminal entry, return the result. -/
def SimulationController.executeToolRun (c : SimulationController)
    (toolName : String) (arguments : List (String × PyVal))
    (outcome : ProviderOutcome) (t0 t1 : Nat) :
    Except SimError ExecutionResult × SimulationController :=
  match c.session with
  | Option.none => (Except.error SimError.noSession, c)
  | Option.some s =>
    if s.state ≠ SessionState.active then
      (Except.error (SimError.stateViolation SessionState.active s.state), c)
    else
      match s.getToolByName toolName with
      | Option.none => (Except.error (SimError.notFound toolName), c)
      | Option.some _tool =>
        let callId := c.nextCallId
        let s1 := { s with history :=
          s.history ++ [HistoryEntry.toolCall toolName arguments callId] }
        let er := c.toolRunner.execute outcome t0 t1
        let s2 := { s1 with history := s1.history ++ [terminalEntryFor callId er.1] }
        (Except.ok er.1,
         { c with session := Option.some s2, toolRunner := er.2,
                  nextCallId := c.nextCallId + 1 })

/-- SimulationController.submit_final_response: ACTIVE check, append the
FinalResponse entry, then SimulationSession.complete_session. -/
def SimulationController.submitFinalResponseRun (c : SimulationController)
    (response : String) : Except SimError Unit × SimulationController :=
  match c.session with
  | Option.none => (Except.error SimError.noSession, c)
  | Option.some s =>
    if s.state ≠ SessionState.active then
      (Except.error (SimError.stateViolation SessionState.active s.state), c)
    else
      let s1 := { s with history := s.history ++ [HistoryEntry.finalResponse response] }
      match s1.completeSession with
      | Except.error e => (Except.error e, { c with session := Option.some s1 })
      | Except.ok s2 => (Except.ok (), { c with session := Option.some s2 })

/-! Golden-trace exporter (export/golden_trace.py). -/

/-- A genai Content value: a role and the text of each Part. -/
structure Content where
  role : String
  parts : List String
deriving DecidableEq, Repr

/-- A genai FunctionCall record as built by the exporter. -/
structure FunctionCall where
  id : Nat
  name : String
  args : List (String × PyVal)

/-- A genai FunctionResponse record as built by the exporter. -/
structure FunctionResponse where
  id : Nat
  name : String
  response : List (String × PyVal)

/-- Invocation from the ADK eval_case model, as populated by build(). -/
structure Invocation where
  invocationId : String
  userContent : Content
  finalResponse : Content
  toolUses : Option (List FunctionCall)
  toolResponses : Option (List FunctionResponse)
  intermediateDataPresent : Bool

/-- EvalCase as populated by build(). -/
structure EvalCase where
  evalId : String
  conversation : List Invocation
  creationTimestamp : Nat

/-- Characters the snake-casing keeps: [a-z0-9_]. -/
def allowedChar (c : Char) : Bool :=
  (Char.ofNat 97 ≤ c && c ≤ Char.ofNat 122) ||
  (Char.ofNat 48 ≤ c && c ≤ Char.ofNat 57) || c == Char.ofNat 95

/-- The underscore character. -/
def usChar : Char := Char.ofNat 95

/-- Tail step of re.sub on pattern (?<!^)(?=[A-Z]): an underscore is
inserted before every uppercase ASCII letter past the first position. -/
def insertSepTail : List Char → List Char
  | [] => []
  | c :: rest =>
      if c.isUpper then usChar :: c :: insertSepTail rest
      else c :: insertSepTail rest

/-- re.sub on pattern (?<!^)(?=[A-Z]): the first character is exempt. -/
def insertSep : List Char → List Char
  | [] => []
  | c :: rest => c :: insertSepTail rest

/-- str.lower (ASCII case mapping; any character this misses relative to
Python full-Unicode lowering is replaced by an underscore in the next
step either way). -/
def lowerAll (l : List Char) : List Char := l.map Char.toLower

/-- re.sub replacing every character outside [a-z0-9_] with an underscore. -/
def replaceBad (l : List Char) : List Char :=
  l.map (fun c => if allowedChar c then c else usChar)

/-- re.sub collapsing every run of underscores to a single underscore. -/
def collapseUs : List Char → List Char
  | [] => []
  | [c] => [c]
  | c1 :: c2 :: rest =>
      if c1 == usChar && c2 == usChar then collapseUs (c2 :: rest)
      else c1 :: collapseUs (c2 :: rest)

/-- str.strip of underscores from both ends. -/
def stripUs (l : List Char) : List Char :=
  ((l.dropWhile (fun c => c == usChar)).reverse.dropWhile
    (fun c => c == usChar)).reverse

/-- The snake-casing pipeline of _generate_eval_id, source order. -/
def snakeCase (s : String) : String :=
  String.mk (stripUs (collapseUs (replaceBad (lowerAll (insertSep s.data)))))

/-- GoldenTraceBuilder._generate_eval_id; ts is the strftime UTC
timestamp string, an input because the clock is external. -/
def generateEvalId (agentName : String) (ts : String) : String :=
  snakeCase (pyOrString (Option.some agentName) "unknown") ++ "_" ++ ts

/-- Loop of _extract_user_query: first UserQuery content, if any. -/
def findFirstUserQuery : List HistoryEntry → Option String
  | [] => Option.none
  | HistoryEntry.userQuery content :: _ => Option.some content
  | _ :: rest => findFirstUserQuery rest

/-- GoldenTraceBuilder._extract_user_query. -/
def extractUserQuery (h : List HistoryEntry) : Content :=
  match findFirstUserQuery h with
  | Option.some content => { role := "user", parts := [content] }
  | Option.none => { role := "user", parts := [""] }

/-- Loop body of _extract_final_response (it scans reversed(history)):
first FinalResponse content of the given list, if any. -/
def findFirstFinalResponse : List HistoryEntry → Option String
  | [] => Option.none
  | HistoryEntry.finalResponse content :: _ => Option.some content
  | _ :: rest => findFirstFinalResponse rest

/-- GoldenTraceBuilder._extract_final_response. -/
def extractFinalResponse (h : List HistoryEntry) : Content :=
  match findFirstFinalResponse h.reverse with
  | Option.some content => { role := "model", parts := [content] }
  | Option.none => { role := "model", parts := [""] }

/-- GoldenTraceBuilder._serialize_result, source branch order: None,
dict (returned verbatim), primitive scalar, list/tuple, model_dump
(an obj whose dump capability is present and succeeds), str fallback. -/
def serializeResult : PyVal → List (String × PyVal)
  | PyVal.none => [("result", PyVal.none)]
  | PyVal.dict kvs => kvs
  | PyVal.str s => [("result", PyVal.str s)]
  | PyVal.int n => [("result", PyVal.int n)]
  | PyVal.bool b => [("result", PyVal.bool b)]
  | PyVal.list xs => [("result", PyVal.list xs)]
  | PyVal.tuple xs => [("result", PyVal.list xs)]
  | PyVal.obj (Option.some d) _ => d
  | PyVal.obj Option.none strForm => [("result", PyVal.str strForm)]

/-- Error payload built for a ToolError entry; the traceback key is
present only when the traceback is truthy (non-None, non-empty). -/
def errorPayload (errorType errorMessage : String) (tb : Option String) :
    List (String × PyVal) :=
  [("error", PyVal.bool true), ("error_type", PyVal.str errorType),
   ("error_message", PyVal.str errorMessage)] ++
  (match tb with
   | Option.some t => if t = "" then [] else [("traceback", PyVal.str t)]
   | Option.none => [])

/-- Python dict insertion for the call_id -> tool_name map: the newest
assignment wins on lookup. -/
def mapInsert (m : List (Nat × String)) (k : Nat) (v : String) :
    List (Nat × String) :=
  (k, v) :: m

/-- Lookup in the call_id -> tool_name map (first, i.e. newest, match). -/
def mapLookup (m : List (Nat × String)) (k : Nat) : Option String :=
  (m.find? (fun p => p.1 == k)).map (fun p => p.2)

/-- Loop of _extract_tool_data over the remaining history, carrying the
call_id -> tool_name map built so far. -/
def extractToolDataAux (m : List (Nat × String)) :
    List HistoryEntry → List FunctionCall × List FunctionResponse
  | [] => ([], [])
  | HistoryEntry.toolCall toolName args callId :: rest =>
      let m1 := mapInsert m callId toolName
      let r := extractToolDataAux m1 rest
      ({ id := callId, name := toolName, args := args } :: r.1, r.2)
  | HistoryEntry.toolOutput callId result _ :: rest =>
      let toolName := (mapLookup m callId).getD "unknown"
      let r := extractToolDataAux m rest
      (r.1, { id := callId, name := toolName,
              response := serializeResult result } :: r.2)
  | HistoryEntry.toolError callId errorType errorMessage tb _ :: rest =>
      let toolName := (mapLookup m callId).getD "unknown"
      let r := extractToolDataAux m rest
      (r.1, { id := callId, name := toolName,
              response := errorPayload errorType errorMessage tb } :: r.2)
  | HistoryEntry.userQuery _ :: rest => extractToolDataAux m rest
  | HistoryEntry.finalResponse _ :: rest => extractToolDataAux m rest

/-- GoldenTraceBuilder._extract_tool_data. -/
def extractToolData (h : List HistoryEntry) :
    List FunctionCall × List FunctionResponse :=
  extractToolDataAux [] h

/-- GoldenTraceBuilder.build; ts is the eval_id timestamp string and now
the creation_timestamp clock reading, both external inputs. The
intermediate_data dict carries tool_uses / tool_responses only when
non-empty and is None when both are empty. -/
def build (s : SimulationSession) (ts : String) (now : Nat) : EvalCase :=
  let td := extractToolData s.history
  let invocation : Invocation :=
    { invocationId := s.sessionId,
      userContent := extractUserQuery s.history,
      finalResponse := extractFinalResponse s.history,
      toolUses := if td.1.isEmpty then Option.none else Option.some td.1,
      toolResponses := if td.2.isEmpty then Option.none else Option.some td.2,
      intermediateDataPresent := !td.1.isEmpty || !td.2.isEmpty }
  { evalId := generateEvalId s.agentName ts,
    conversation := [invocation],
    creationTimestamp := now }

/-- SimulationController.export_trace: no-session check, COMPLETED
check, then a GoldenTraceBuilder build over the session (the JSON
rendering of the resulting document is not modelled). -/
def SimulationController.exportTraceRun (c : SimulationController)
    (ts : String) (now : Nat) :
    Except SimError EvalCase × SimulationController :=
  match c.session with
  | Option.none => (Except.error SimError.noSession, c)
  | Option.some s =>
    if s.state ≠ SessionState.completed then
      (Except.error (SimError.stateViolation SessionState.completed s.state), c)
    else
      (Except.ok (build s ts now), c)

/-! Operation sequences over the controller, for reachability claims. -/

/-- One external call into the controller, with the external inputs
(provider outcome, clock readings, timestamp strings) it consumes. -/
inductive Op where
  | createSession
  | selectAgent (agentName : String)
  | startSession (query : String) (tNow : Nat)
  | executeTool (toolName : String) (arguments : List (String × PyVal))
      (outcome : ProviderOutcome) (t0 t1 : Nat)
  | cancelTool
  | submitFinalResponse (response : String)
  | exportTrace (ts : String) (now : Nat)

/-- The controller after one call (the call's return value dropped). -/
def stepOp (c : SimulationController) : Op → SimulationController
  | Op.createSession => c.createSession
  | Op.selectAgent n => (c.selectAgentRun n).2
  | Op.startSession q t => (c.startSessionRun q t).2
  | Op.executeTool n a o t0 t1 => (c.executeToolRun n a o t0 t1).2
  | Op.cancelTool => { c with toolRunner := c.toolRunner.cancel }
  | Op.submitFinalResponse r => (c.submitFinalResponseRun r).2
  | Op.exportTrace ts now => (c.exportTraceRun ts now).2

/-- The controller after a sequence of calls. -/
def runOps (c : SimulationController) (ops : List Op) : SimulationController :=
  ops.foldl stepOp c

/-- A freshly constructed controller over an agent registry. -/
def initController (agents : List (String × List Tool)) : SimulationController :=
  { agents := agents, session := Option.none, toolRunner := {},
    nextCallId := 0 }

/-! Observers on history entries and histories, used to state claims. -/

/-- The call_id when the entry is a ToolCall. -/
def toolCallId? : HistoryEntry → Option Nat
  | HistoryEntry.toolCall _ _ callId => Option.some callId
  | _ => Option.none

/-- The call_id when the entry is a terminal entry (ToolOutput/ToolError). -/
def terminalCallId? : HistoryEntry → Option Nat
  | HistoryEntry.toolOutput callId _ _ => Option.some callId
  | HistoryEntry.toolError callId _ _ _ _ => Option.some callId
  | _ => Option.none

/-- The call_id carried by the entry, if any. -/
def anyCallId? : HistoryEntry → Option Nat
  | HistoryEntry.toolCall _ _ callId => Option.some callId
  | HistoryEntry.toolOutput callId _ _ => Option.some callId
  | HistoryEntry.toolError callId _ _ _ _ => Option.some callId
  | _ => Option.none

/-- Whether the entry is a ToolOutput. -/
def isToolOutputEntry : HistoryEntry → Bool
  | HistoryEntry.toolOutput _ _ _ => true
  | _ => false

/-- Whether the entry is a ToolError. -/
def isToolErrorEntry : HistoryEntry → Bool
  | HistoryEntry.toolError _ _ _ _ _ => true
  | _ => false

/-- Number of ToolCall entries carrying the given call_id. -/
def countToolCallsWith (h : List HistoryEntry) (k : Nat) : Nat :=
  h.countP (fun e => toolCallId? e == Option.some k)

/-- Number of terminal entries carrying the given call_id. -/
def countTerminalsWith (h : List HistoryEntry) (k : Nat) : Nat :=
  h.countP (fun e => terminalCallId? e == Option.some k)

/-- Whether a ToolOutput with the given call_id occurs. -/
def hasOutputFor (h : List HistoryEntry) (k : Nat) : Bool :=
  h.any (fun e => isToolOutputEntry e && terminalCallId? e == Option.some k)

/-- Whether a ToolError with the given call_id occurs. -/
def hasErrorFor (h : List HistoryEntry) (k : Nat) : Bool :=
  h.any (fun e => isToolErrorEntry e && terminalCallId? e == Option.some k)

/-- The correlation invariant of the claim: every terminal entry has
exactly one preceding ToolCall with its call_id, and no call_id carries
both a ToolOutput and a ToolError. -/
def CorrelationOK (h : List HistoryEntry) : Prop :=
  (∀ pre e post k, h = pre ++ e :: post → terminalCallId? e = Option.some k →
      countToolCallsWith pre k = 1) ∧
  (∀ k, ¬(hasOutputFor h k = true ∧ hasErrorFor h k = true))

/-- Inductive invariant carried through controller runs: call_ids are
below the mint counter, ToolCall ids and terminal ids are unique, and
every terminal entry is preceded by exactly one matching ToolCall. -/
def HistInv (h : List HistoryEntry) (next : Nat) : Prop :=
  (∀ e ∈ h, ∀ k, anyCallId? e = Option.some k → k < next) ∧
  (∀ k, countToolCallsWith h k ≤ 1) ∧
  (∀ k, countTerminalsWith h k ≤ 1) ∧
  (∀ pre e post k, h = pre ++ e :: post → terminalCallId? e = Option.some k →
      countToolCallsWith pre k = 1)

/-- The invariant over a controller: it holds of the session history
whenever a session is present. -/
def CtrlInv (c : SimulationController) : Prop :=
  ∀ s, c.session = Option.some s → HistInv s.history c.nextCallId

/-! Spec-side selector functions used to state exporter claims. -/

/-- The content of a UserQuery entry. -/
def userQueryContent? : HistoryEntry → Option String
  | HistoryEntry.userQuery content => Option.some content
  | _ => Option.none

/-- The content of a FinalResponse entry. -/
def finalResponseContent? : HistoryEntry → Option String
  | HistoryEntry.finalResponse content => Option.some content
  | _ => Option.none

/-- Modelled from the claim: the five-rule serialization policy, first
match winning — None, primitive scalar, sequence, structured dump,
otherwise some string form. An obj with an absent (or failing) dump and
a dict both fall to the final string rule. -/
def FiveRuleOutput (v : PyVal) (out : List (String × PyVal)) : Prop :=
  match v with
  | PyVal.none => out = [("result", PyVal.none)]
  | PyVal.bool b => out = [("result", PyVal.bool b)]
  | PyVal.int n => out = [("result", PyVal.int n)]
  | PyVal.str s => out = [("result", PyVal.str s)]
  | PyVal.list xs => out = [("result", PyVal.list xs)]
  | PyVal.tuple xs => out = [("result", PyVal.list xs)]
  | PyVal.obj (Option.some d) _ => out = d
  | _ => ∃ s, out = [("result", PyVal.str s)]

/-- Modelled from the amended claim: the same policy with a mapping rule
inserted after the None rule — a dict maps to itself unchanged. -/
def SixRuleOutput (v : PyVal) (out : List (String × PyVal)) : Prop :=
  match v with
  | PyVal.none => out = [("result", PyVal.none)]
  | PyVal.dict kvs => out = kvs
  | PyVal.bool b => out = [("result", PyVal.bool b)]
  | PyVal.int n => out = [("result", PyVal.int n)]
  | PyVal.str s => out = [("result", PyVal.str s)]
  | PyVal.list xs => out = [("result", PyVal.list xs)]
  | PyVal.tuple xs => out = [("result", PyVal.list xs)]
  | PyVal.obj (Option.some d) _ => out = d
  | PyVal.obj Option.none strForm => out = [("result", PyVal.str strForm)]

/-- The tool name of a ToolCall entry when it carries the given call_id. -/
def callNameFor (k : Nat) : HistoryEntry → Option String
  | HistoryEntry.toolCall toolName _ callId =>
      if callId == k then Option.some toolName else Option.none
  | _ => Option.none

/-- The name of the most recent ToolCall with the given call_id in the
given (prefix of) history, if any. -/
def lastCallNameIn (l : List HistoryEntry) (k : Nat) : Option String :=
  (l.filterMap (callNameFor k)).getLast?

/-- The name of the first ToolCall with the given call_id, if any (the
naming rule the claim asserts). -/
def firstCallNameIn (l : List HistoryEntry) (k : Nat) : Option String :=
  (l.filterMap (callNameFor k)).head?

/-- Modelled from the amended claim: the response records the exporter
emits, processed entry by entry, each named after the most recent
ToolCall with its call_id in the history before it, or "unknown". -/
def responsesSpecGo (pfx : List HistoryEntry) :
    List HistoryEntry → List FunctionResponse
  | [] => []
  | e :: rest =>
    match e with
    | HistoryEntry.toolOutput callId result _ =>
        { id := callId, name := (lastCallNameIn pfx callId).getD "unknown",
          response := serializeResult result } ::
          responsesSpecGo (pfx ++ [e]) rest
    | HistoryEntry.toolError callId errorType errorMessage tb _ =>
        { id := callId, name := (lastCallNameIn pfx callId).getD "unknown",
          response := errorPayload errorType errorMessage tb } ::
          responsesSpecGo (pfx ++ [e]) rest
    | _ => responsesSpecGo (pfx ++ [e]) rest

/-- The response list prescribed by the amended claim over a history. -/
def responsesSpec (h : List HistoryEntry) : List FunctionResponse :=
  responsesSpecGo [] h

/-- Whether a run of two underscores occurs. -/
def noDoubleUs : List Char → Bool
  | [] => true
  | [_] => true
  | c1 :: c2 :: rest =>
      !(c1 == usChar && c2 == usChar) && noDoubleUs (c2 :: rest)

/-! Concrete fixtures used by witnesses and counterexamples. -/

/-- A one-agent registry with a single tool. -/
def demoAgents : List (String × List Tool) := [("calc", [Tool.mk "add"])]

/-- The happy-path operation sequence of the spec scenario. -/
def demoOps : List Op :=
  [Op.createSession, Op.selectAgent "calc", Op.startSession "add 2 and 3" 7,
   Op.executeTool "add" [("a", PyVal.int 2), ("b", PyVal.int 3)]
     (ProviderOutcome.normal (PyVal.int 5)) 10 25,
   Op.submitFinalResponse "5"]

/-- The session reached by the demo operation sequence. -/
def demoSession : SimulationSession :=
  { sessionId := "", agentName := "calc", tools := [Tool.mk "add"],
    state := SessionState.completed,
    history := [HistoryEntry.userQuery "add 2 and 3",
      HistoryEntry.toolCall "add" [("a", PyVal.int 2), ("b", PyVal.int 3)] 0,
      HistoryEntry.toolOutput 0 (PyVal.int 5) 15,
      HistoryEntry.finalResponse "5"],
    startTimestamp := 7 }

/-- The controller after createSession and selectAgent, in AWAITING_QUERY. -/
def demoAwaitingCtrl : SimulationController :=
  runOps (initController demoAgents) [Op.createSession, Op.selectAgent "calc"]

/-- The controller after the whole demo sequence, in COMPLETED. -/
def demoCompletedCtrl : SimulationController :=
  runOps (initController demoAgents) demoOps

/-- A history with a duplicated call_id: two ToolCalls named "a" and "b"
both carry call_id 1, then a ToolOutput for call_id 1. -/
def dupHistory : List HistoryEntry :=
  [HistoryEntry.toolCall "a" [] 1, HistoryEntry.toolCall "b" [] 1,
   HistoryEntry.toolOutput 1 PyVal.none 0]

/-- The controller after createSession, selectAgent and startSession,
in ACTIVE. -/
def demoActiveCtrl : SimulationController :=
  runOps (initController demoAgents)
    [Op.createSession, Op.selectAgent "calc", Op.startSession "add 2 and 3" 7]

/-- The session held by demoActiveCtrl. -/
def demoActiveSession : SimulationSession :=
  { sessionId := "", agentName := "calc", tools := [Tool.mk "add"],
    state := SessionState.active,
    history := [HistoryEntry.userQuery "add 2 and 3"],
    startTimestamp := 7 }

/-! Theorems. -/

/-- C3: the engine's execute is a total function into ExecutionResult
(no failure of the tool escapes: the type of execute already states
this), and classifies the mutually exclusive provider outcomes in
priority order: normal completion gives success with the returned
value, observed cancellation gives a failed, cancelled result with the
fixed message, and any other failure gives a failed result carrying the
failure's class name, message and optional traceback; on every path
duration_ms is the time elapsed between entry and exit. -/
theorem C3_engine_classification (r : ToolRunner) (v : PyVal)
    (et em : String) (tb : Option String) (t0 t1 : Nat) :
    (((r.execute (ProviderOutcome.normal v) t0 t1).1).success = true ∧
     ((r.execute (ProviderOutcome.normal v) t0 t1).1).result = Option.some v ∧
     ((r.execute (ProviderOutcome.normal v) t0 t1).1).cancelled = false ∧
     ((r.execute (ProviderOutcome.normal v) t0 t1).1).errorType = Option.none ∧
     ((r.execute (ProviderOutcome.normal v) t0 t1).1).durationMs = t1 - t0) ∧
    (((r.execute ProviderOutcome.cancelled t0 t1).1).success = false ∧
     ((r.execute ProviderOutcome.cancelled t0 t1).1).cancelled = true ∧
     ((r.execute ProviderOutcome.cancelled t0 t1).1).errorMessage =
       Option.some "Tool execution was cancelled" ∧
     ((r.execute ProviderOutcome.cancelled t0 t1).1).result = Option.none ∧
     ((r.execute ProviderOutcome.cancelled t0 t1).1).durationMs = t1 - t0) ∧
    (((r.execute (ProviderOutcome.failure et em tb) t0 t1).1).success = false ∧
     ((r.execute (ProviderOutcome.failure et em tb) t0 t1).1).cancelled = false ∧
     ((r.execute (ProviderOutcome.failure et em tb) t0 t1).1).errorType =
       Option.some et ∧
     ((r.execute (ProviderOutcome.failure et em tb) t0 t1).1).errorMessage =
       Option.some em ∧
     ((r.execute (ProviderOutcome.failure et em tb) t0 t1).1).errorTraceback = tb ∧
     ((r.execute (ProviderOutcome.failure et em tb) t0 t1).1).durationMs = t1 - t0) :=
  ⟨⟨rfl, rfl, rfl, rfl, rfl⟩, ⟨rfl, rfl, rfl, rfl, rfl⟩,
   ⟨rfl, rfl, rfl, rfl, rfl, rfl⟩⟩

/-- C10: after execute returns — on every exit path, normal completion,
tool failure or cancellation alike — the engine is idle again: the
running flag is cleared, the current-task reference is cleared, and
elapsed_ms reads 0 at any later clock value. -/
theorem C10_engine_idle_after_execute (r : ToolRunner)
    (outcome : ProviderOutcome) (t0 t1 now : Nat) :
    ((r.execute outcome t0 t1).2).isRunning = false ∧
    ((r.execute outcome t0 t1).2).currentTask = Option.none ∧
    ((r.execute outcome t0 t1).2).elapsedMs now = 0 :=
  ⟨rfl, rfl, rfl⟩

/-- C9: the exported user_content, final_response, tool_uses and
tool_responses are a function of the session's history and agent_name
alone — two builds over sessions agreeing on those, at different clock
readings, agree on all four (only eval_id and creation_timestamp carry
the clock). -/
theorem C9_export_deterministic (s1 s2 : SimulationSession)
    (ts1 ts2 : String) (n1 n2 : Nat)
    (hh : s1.history = s2.history) (ha : s1.agentName = s2.agentName) :
    (build s1 ts1 n1).conversation.map Invocation.userContent =
      (build s2 ts2 n2).conversation.map Invocation.userContent ∧
    (build s1 ts1 n1).conversation.map Invocation.finalResponse =
      (build s2 ts2 n2).conversation.map Invocation.finalResponse ∧
    (build s1 ts1 n1).conversation.map Invocation.toolUses =
      (build s2 ts2 n2).conversation.map Invocation.toolUses ∧
    (build s1 ts1 n1).conversation.map Invocation.toolResponses =
      (build s2 ts2 n2).conversation.map Invocation.toolResponses := by
  simp only [build, List.map, hh]
  exact ⟨trivial, trivial, trivial, trivial⟩

/-- Witness for C9 at a concrete completed session and two distinct
clock readings. -/
theorem C9_export_deterministic_witness :
    (build demoSession "20260101T000000Z" 0).conversation.map
        Invocation.userContent =
      (build demoSession "20260102T000000Z" 99).conversation.map
        Invocation.userContent ∧
    (build demoSession "20260101T000000Z" 0).conversation.map
        Invocation.finalResponse =
      (build demoSession "20260102T000000Z" 99).conversation.map
        Invocation.finalResponse ∧
    (build demoSession "20260101T000000Z" 0).conversation.map
        Invocation.toolUses =
      (build demoSession "20260102T000000Z" 99).conversation.map
        Invocation.toolUses ∧
    (build demoSession "20260101T000000Z" 0).conversation.map
        Invocation.toolResponses =
      (build demoSession "20260102T000000Z" 99).conversation.map
        Invocation.toolResponses :=
  C9_export_deterministic demoSession demoSession _ _ 0 99 rfl rfl

/-- The user-query loop is the first-match selector over the history. -/
theorem findFirstUserQuery_eq (l : List HistoryEntry) :
    findFirstUserQuery l = l.findSome? userQueryContent? := by
  induction l with
  | nil => rfl
  | cons e rest ih =>
      cases e <;> simp [findFirstUserQuery, List.findSome?_cons,
        userQueryContent?, ih]

/-- The final-response loop is the first-match selector over its list. -/
theorem findFirstFinalResponse_eq (l : List HistoryEntry) :
    findFirstFinalResponse l = l.findSome? finalResponseContent? := by
  induction l with
  | nil => rfl
  | cons e rest ih =>
      cases e <;> simp [findFirstFinalResponse, List.findSome?_cons,
        finalResponseContent?, ih]

/-- findSome? returns the head of the filterMap image. -/
theorem findSome?_eq_head_filterMap {α β : Type} (l : List α)
    (f : α → Option β) : l.findSome? f = (l.filterMap f).head? := by
  induction l with
  | nil => rfl
  | cons a t ih =>
      cases h : f a with
      | none => rw [List.findSome?_cons, List.filterMap_cons, h, ih]
      | some b => rw [List.findSome?_cons, List.filterMap_cons, h]; simp

/-- C5: over any COMPLETED session — whatever the history, with zero or
many UserQuery/FinalResponse entries — the exporter's user_content is
the first UserQuery content wrapped as a single-part "user" message and
final_response is the last FinalResponse content wrapped as a
single-part "model" message, each with an empty-text fallback; both
extractors are total functions, so no history makes export fail. -/
theorem C5_extract_first_and_last (s : SimulationSession)
    (hc : s.state = SessionState.completed) :
    extractUserQuery s.history =
      { role := "user",
        parts := [((s.history.findSome? userQueryContent?).getD "")] } ∧
    extractFinalResponse s.history =
      { role := "model",
        parts := [(((s.history.filterMap finalResponseContent?).getLast?).getD "")] } := by
  constructor
  · rw [extractUserQuery, findFirstUserQuery_eq]
    cases s.history.findSome? userQueryContent? <;> simp
  · rw [extractFinalResponse, findFirstFinalResponse_eq,
        findSome?_eq_head_filterMap, List.filterMap_reverse,
        List.head?_reverse]
    cases (s.history.filterMap finalResponseContent?).getLast? <;> simp

/-- Witness for C5 at a concrete completed session. -/
theorem C5_extract_first_and_last_witness :
    extractUserQuery demoSession.history =
      { role := "user",
        parts := [((demoSession.history.findSome? userQueryContent?).getD "")] } ∧
    extractFinalResponse demoSession.history =
      { role := "model",
        parts := [(((demoSession.history.filterMap finalResponseContent?).getLast?).getD "")] } :=
  C5_extract_first_and_last demoSession rfl

/-- C6 counterexample: on a dict input the code returns the dict
verbatim, while the claim's five rules — None, scalar, sequence,
structured dump, otherwise-string — leave only the string rule for a
dict, which would produce a single-key "result" record whatever the
string form is. The two disagree structurally on the concrete input
given here (key "a" versus key "result"). -/
theorem C6_counterexample :
    serializeResult (PyVal.dict [("a", PyVal.int 1)]) = [("a", PyVal.int 1)] ∧
    ¬ FiveRuleOutput (PyVal.dict [("a", PyVal.int 1)])
        (serializeResult (PyVal.dict [("a", PyVal.int 1)])) := by
  refine ⟨rfl, ?_⟩
  intro h
  obtain ⟨s, hs⟩ := h
  simp [serializeResult] at hs

/-- C6 amended: the serialization applies six rules in order with the
first match winning — None gives a "result" record holding None; a dict
maps to itself unchanged; a primitive scalar gives a "result" record
holding the value; a sequence gives a "result" record holding it as a
list; an object exposing a (succeeding) structured dump gives that
dump; any other value gives a "result" record holding its string form —
and every input is determined by exactly one rule. -/
theorem C6_amended_serialization (v : PyVal) : SixRuleOutput v (serializeResult v) := by
  cases v with
  | none => rfl
  | bool b => rfl
  | int n => rfl
  | str s => rfl
  | list xs => rfl
  | tuple xs => rfl
  | dict kvs => rfl
  | obj dump strForm => cases dump <;> rfl

/-- C7 counterexample: in a history where two ToolCalls named "a" then
"b" carry the same call_id, the exporter names the correlated response
"b" — the most recently seen ToolCall — while the claim prescribes the
first-seen name "a". -/
theorem C7_counterexample :
    firstCallNameIn dupHistory 1 = Option.some "a" ∧
    (extractToolData dupHistory).2.map FunctionResponse.name = ["b"] :=
  ⟨rfl, rfl⟩

/-- Appending a non-ToolCall entry does not change the remembered name. -/
theorem lastCallNameIn_append_nonCall (pfx : List HistoryEntry)
    (e : HistoryEntry) (hnc : ∀ k, callNameFor k e = Option.none) (k : Nat) :
    lastCallNameIn (pfx ++ [e]) k = lastCallNameIn pfx k := by
  unfold lastCallNameIn
  rw [List.filterMap_append]
  simp [List.filterMap, hnc k]

/-- Appending a ToolCall overwrites the remembered name for its id. -/
theorem lastCallNameIn_append_call (pfx : List HistoryEntry)
    (nm : String) (args : List (String × PyVal)) (k k1 : Nat) :
    lastCallNameIn (pfx ++ [HistoryEntry.toolCall nm args k1]) k =
      if k1 == k then Option.some nm else lastCallNameIn pfx k := by
  unfold lastCallNameIn
  rw [List.filterMap_append]
  by_cases hk : (k1 == k) = true
  · simp [List.filterMap, callNameFor, hk]
  · simp only [Bool.not_eq_true] at hk
    simp [List.filterMap, callNameFor, hk]

/-- Lookup in the incremental map after an insertion. -/
theorem mapLookup_insert (m : List (Nat × String)) (k1 : Nat) (nm : String)
    (k : Nat) :
    mapLookup (mapInsert m k1 nm) k =
      if k1 == k then Option.some nm else mapLookup m k := by
  unfold mapLookup mapInsert
  by_cases hk : (k1 == k) = true
  · simp [List.find?_cons, hk]
  · simp only [Bool.not_eq_true] at hk
    simp [List.find?_cons, hk]

/-- The incremental single-pass naming of the exporter agrees with the
per-position most-recent-prior-ToolCall rule, given that the carried
map already agrees with the processed prefix. -/
theorem extractToolDataAux_snd (rest : List HistoryEntry) :
    ∀ (m : List (Nat × String)) (pfx : List HistoryEntry),
      (∀ k, mapLookup m k = lastCallNameIn pfx k) →
      (extractToolDataAux m rest).2 = responsesSpecGo pfx rest := by
  induction rest with
  | nil => intro m pfx _; rfl
  | cons e rest ih =>
      intro m pfx hm
      cases e with
      | toolCall nm args k =>
          show (extractToolDataAux (mapInsert m k nm) rest).2 =
            responsesSpecGo (pfx ++ [HistoryEntry.toolCall nm args k]) rest
          apply ih
          intro k1
          rw [mapLookup_insert, lastCallNameIn_append_call, hm k1]
      | toolOutput k res d =>
          show ({ id := k, name := (mapLookup m k).getD "unknown",
                  response := serializeResult res } : FunctionResponse) ::
              (extractToolDataAux m rest).2 =
            ({ id := k, name := (lastCallNameIn pfx k).getD "unknown",
               response := serializeResult res } : FunctionResponse) ::
              responsesSpecGo (pfx ++ [HistoryEntry.toolOutput k res d]) rest
          rw [hm k, ih m (pfx ++ [HistoryEntry.toolOutput k res d]) (fun k1 => by
            rw [lastCallNameIn_append_nonCall pfx (HistoryEntry.toolOutput k res d)
              (fun _ => rfl), hm k1])]
      | toolError k et em tb d =>
          show ({ id := k, name := (mapLookup m k).getD "unknown",
                  response := errorPayload et em tb } : FunctionResponse) ::
              (extractToolDataAux m rest).2 =
            ({ id := k, name := (lastCallNameIn pfx k).getD "unknown",
               response := errorPayload et em tb } : FunctionResponse) ::
              responsesSpecGo (pfx ++ [HistoryEntry.toolError k et em tb d]) rest
          rw [hm k, ih m (pfx ++ [HistoryEntry.toolError k et em tb d]) (fun k1 => by
            rw [lastCallNameIn_append_nonCall pfx (HistoryEntry.toolError k et em tb d)
              (fun _ => rfl), hm k1])]
      | userQuery q =>
          show (extractToolDataAux m rest).2 =
            responsesSpecGo (pfx ++ [HistoryEntry.userQuery q]) rest
          exact ih m (pfx ++ [HistoryEntry.userQuery q]) (fun k1 => by
            rw [lastCallNameIn_append_nonCall pfx (HistoryEntry.userQuery q)
              (fun _ => rfl), hm k1])
      | finalResponse r =>
          show (extractToolDataAux m rest).2 =
            responsesSpecGo (pfx ++ [HistoryEntry.finalResponse r]) rest
          exact ih m (pfx ++ [HistoryEntry.finalResponse r]) (fun k1 => by
            rw [lastCallNameIn_append_nonCall pfx (HistoryEntry.finalResponse r)
              (fun _ => rfl), hm k1])

/-- C7 amended: the exporter names every ToolOutput/ToolError response
record after the most recently seen prior ToolCall with that call_id
(last assignment wins, not first-seen), and names a response whose
call_id matches no prior ToolCall "unknown" — stated as agreement with
the per-position most-recent-prior rule over every history. -/
theorem C7_amended_last_seen_naming (h : List HistoryEntry) :
    (extractToolData h).2 = responsesSpec h :=
  extractToolDataAux_snd h [] [] (fun _ => rfl)

/-- Collapsing underscore runs yields a sublist of the input. -/
theorem collapseUs_sublist : ∀ l : List Char, List.Sublist (collapseUs l) l
  | [] => List.Sublist.refl []
  | [a] => List.Sublist.refl [a]
  | a :: b :: rest => by
      simp only [collapseUs]
      by_cases hab : (a == usChar && b == usChar) = true
      · rw [if_pos hab]
        exact (collapseUs_sublist (b :: rest)).cons a
      · rw [if_neg hab]
        exact (collapseUs_sublist (b :: rest)).cons₂ a

/-- Collapsing preserves the head. -/
theorem collapseUs_head : ∀ (a : Char) (l : List Char),
    ∃ t, collapseUs (a :: l) = a :: t
  | _, [] => ⟨[], rfl⟩
  | a, b :: rest => by
      simp only [collapseUs]
      by_cases hab : (a == usChar && b == usChar) = true
      · rw [if_pos hab]
        obtain ⟨ha, hb⟩ := Bool.and_eq_true_iff.mp hab
        obtain ⟨t, ht⟩ := collapseUs_head b rest
        exact ⟨t, by rw [ht, eq_of_beq hb, eq_of_beq ha]⟩
      · rw [if_neg hab]
        exact ⟨collapseUs (b :: rest), rfl⟩

/-- The collapsed list has no two adjacent underscores. -/
theorem noDoubleUs_collapseUs : ∀ l : List Char,
    noDoubleUs (collapseUs l) = true
  | [] => rfl
  | [_] => rfl
  | a :: b :: rest => by
      simp only [collapseUs]
      by_cases hab : (a == usChar && b == usChar) = true
      · rw [if_pos hab]
        exact noDoubleUs_collapseUs (b :: rest)
      · rw [if_neg hab]
        obtain ⟨t, ht⟩ := collapseUs_head b rest
        have hrec := noDoubleUs_collapseUs (b :: rest)
        rw [ht] at hrec ⊢
        simp only [noDoubleUs, hrec, Bool.and_true, Bool.not_eq_true']
        exact Bool.not_eq_true _ ▸ (Bool.of_not_eq_true hab)

/-- Bool adjacency check stated as a chain relation. -/
theorem noDoubleUs_iff_chain : ∀ l : List Char,
    noDoubleUs l = true ↔ l.Chain' (fun a b => ¬(a = usChar ∧ b = usChar))
  | [] => by simp [noDoubleUs]
  | [a] => by simp [noDoubleUs]
  | a :: b :: rest => by
      rw [List.chain'_cons, ← noDoubleUs_iff_chain (b :: rest)]
      simp only [noDoubleUs, Bool.and_eq_true, Bool.not_eq_true',
        Bool.and_eq_false_iff, beq_eq_false_iff_ne, ne_eq, beq_iff_eq]
      constructor
      · rintro ⟨h1, h2⟩
        refine ⟨?_, h2⟩
        rintro ⟨ha, hb⟩
        cases h1 with
        | inl h => exact h ha
        | inr h => exact h hb
      · rintro ⟨h1, h2⟩
        refine ⟨?_, h2⟩
        by_cases ha : a = usChar
        · exact Or.inr (fun hb => h1 ⟨ha, hb⟩)
        · exact Or.inl ha

/-- The adjacency property is symmetric under reversal. -/
theorem noDoubleUs_reverse (l : List Char) (h : noDoubleUs l = true) :
    noDoubleUs l.reverse = true := by
  rw [noDoubleUs_iff_chain] at h ⊢
  rw [List.chain'_reverse]
  exact h.imp (fun a b hab => fun hba => hab ⟨hba.2, hba.1⟩)

/-- Dropping a prefix preserves the adjacency property. -/
theorem noDoubleUs_dropWhile (p : Char → Bool) (l : List Char)
    (h : noDoubleUs l = true) : noDoubleUs (l.dropWhile p) = true := by
  induction l with
  | nil => exact h
  | cons a t ih =>
      by_cases hp : p a = true
      · rw [List.dropWhile_cons_of_pos hp]
        apply ih
        cases t with
        | nil => rfl
        | cons b u =>
            exact (Bool.and_eq_true_iff.mp h).2
      · rw [List.dropWhile_cons_of_neg (by simpa using hp)]
        exact h

/-- Members of a stripped list are members of the input. -/
theorem mem_stripUs (l : List Char) (c : Char) (h : c ∈ stripUs l) :
    c ∈ l := by
  unfold stripUs at h
  rw [List.mem_reverse] at h
  have h1 := (List.dropWhile_sublist (l := (l.dropWhile
    (fun c => c == usChar)).reverse) (fun c => c == usChar)).mem h
  rw [List.mem_reverse] at h1
  exact (List.dropWhile_sublist (l := l) (fun c => c == usChar)).mem h1

/-- The head of a dropWhile result does not satisfy the predicate. -/
theorem head_dropWhile_false (p : Char → Bool) (l : List Char) (a : Char)
    (h : (l.dropWhile p).head? = Option.some a) : p a = false := by
  induction l with
  | nil => simp [List.dropWhile] at h
  | cons b t ih =>
      by_cases hb : p b = true
      · rw [List.dropWhile_cons_of_pos hb] at h
        exact ih h
      · rw [List.dropWhile_cons_of_neg (by simpa using hb)] at h
        simp at h
        rw [← h]
        simpa using hb

/-- dropWhile preserves the last element when the result is non-empty. -/
theorem getLast?_dropWhile (p : Char → Bool) (l : List Char)
    (h : ¬(l.dropWhile p = [])) :
    (l.dropWhile p).getLast? = l.getLast? := by
  induction l with
  | nil => simp [List.dropWhile] at h
  | cons b t ih =>
      by_cases hb : p b = true
      · rw [List.dropWhile_cons_of_pos hb] at h ⊢
        rw [ih h]
        cases ht : t with
        | nil => rw [ht] at h; simp [List.dropWhile] at h
        | cons x xs => simp [List.getLast?_cons_cons]
      · rw [List.dropWhile_cons_of_neg (by simpa using hb)]

/-- The stripped list does not start with an underscore. -/
theorem stripUs_head (l : List Char) :
    ((stripUs l).head?.all (fun c => !(c == usChar))) = true := by
  unfold stripUs
  cases hB : ((l.dropWhile (fun c => c == usChar)).reverse.dropWhile
      (fun c => c == usChar)) with
  | nil => rfl
  | cons x xs =>
      rw [List.head?_reverse]
      have hne : ¬(((l.dropWhile (fun c => c == usChar)).reverse.dropWhile
          (fun c => c == usChar)) = []) := by rw [hB]; simp
      rw [← hB]
      rw [getLast?_dropWhile _ _ hne, List.getLast?_reverse]
      cases hA : (l.dropWhile (fun c => c == usChar)).head? with
      | none => rfl
      | some a =>
          have := head_dropWhile_false (fun c => c == usChar) l a hA
          simp [this]

/-- The stripped list does not end with an underscore. -/
theorem stripUs_getLast (l : List Char) :
    ((stripUs l).getLast?.all (fun c => !(c == usChar))) = true := by
  unfold stripUs
  rw [List.getLast?_reverse]
  cases hB : ((l.dropWhile (fun c => c == usChar)).reverse.dropWhile
      (fun c => c == usChar)).head? with
  | none => rfl
  | some a =>
      have := head_dropWhile_false (fun c => c == usChar) _ a hB
      simp [this]

/-- C8: the exported eval_id is the snake-cased agent name, an
underscore, and the externally supplied compact UTC timestamp; an empty
agent name is replaced by the fixed placeholder "unknown" (itself a
fixed point of snake-casing); and for every input the snake-cased part
contains only characters in [a-z0-9_], has no run of repeated
underscores, and neither starts nor ends with an underscore — the
pipeline being: insert a separator before each internal uppercase
letter, lowercase, replace every remaining character outside [a-z0-9_]
by an underscore, collapse separator runs, trim both ends. -/
theorem C8_eval_id_format (name ts : String) :
    generateEvalId name ts =
      snakeCase (if name = "" then "unknown" else name) ++ "_" ++ ts ∧
    generateEvalId "" ts = "unknown" ++ "_" ++ ts ∧
    ((snakeCase name).data.all allowedChar) = true ∧
    noDoubleUs (snakeCase name).data = true ∧
    ((snakeCase name).data.head?.all (fun c => !(c == usChar))) = true ∧
    ((snakeCase name).data.getLast?.all (fun c => !(c == usChar))) = true := by
  refine ⟨rfl, rfl, ?_, ?_, ?_, ?_⟩
  · rw [List.all_eq_true]
    intro c hc
    have hc1 : c ∈ collapseUs (replaceBad (lowerAll (insertSep name.data))) :=
      mem_stripUs _ c hc
    have hc2 : c ∈ replaceBad (lowerAll (insertSep name.data)) :=
      (collapseUs_sublist _).mem hc1
    obtain ⟨a, _, ha⟩ := List.mem_map.mp hc2
    by_cases hall : allowedChar a = true
    · rw [if_pos hall] at ha; rw [← ha]; exact hall
    · rw [if_neg hall] at ha; rw [← ha]; rfl
  · exact noDoubleUs_reverse _ (noDoubleUs_dropWhile _ _
      (noDoubleUs_reverse _ (noDoubleUs_dropWhile _ _
        (noDoubleUs_collapseUs _))))
  · exact stripUs_head _
  · exact stripUs_getLast _

/-- The terminal entry always carries the minted call_id, and it is a
ToolOutput exactly when the engine result succeeded, a ToolError
exactly otherwise. -/
theorem terminalEntryFor_spec (k : Nat) (er : ExecutionResult) :
    terminalCallId? (terminalEntryFor k er) = Option.some k ∧
    isToolOutputEntry (terminalEntryFor k er) = er.success ∧
    isToolErrorEntry (terminalEntryFor k er) = !er.success := by
  cases hsucc : er.success <;>
    simp [terminalEntryFor, hsucc, terminalCallId?, isToolOutputEntry,
      isToolErrorEntry]

/-- C2: on an ACTIVE session, execute_tool with a resolvable tool name
appends a ToolCall and then exactly one terminal entry carrying the
same minted call_id — a ToolOutput when the engine result succeeded, a
ToolError otherwise — and returns the engine's ExecutionResult to the
caller in both cases; with an unresolvable name it fails with NotFound
and leaves the controller (hence history) untouched. -/
theorem C2_execute_tool (c : SimulationController) (s : SimulationSession)
    (toolName : String) (args : List (String × PyVal))
    (outcome : ProviderOutcome) (t0 t1 : Nat)
    (hs : c.session = Option.some s) (ha : s.state = SessionState.active) :
    ((s.getToolByName toolName).isSome = true →
      (c.executeToolRun toolName args outcome t0 t1).1 =
        Except.ok ((c.toolRunner.execute outcome t0 t1).1) ∧
      ((c.executeToolRun toolName args outcome t0 t1).2).session =
        Option.some { s with history := s.history ++
          [HistoryEntry.toolCall toolName args c.nextCallId,
           terminalEntryFor c.nextCallId
             ((c.toolRunner.execute outcome t0 t1).1)] } ∧
      terminalCallId? (terminalEntryFor c.nextCallId
          ((c.toolRunner.execute outcome t0 t1).1)) =
        Option.some c.nextCallId ∧
      isToolOutputEntry (terminalEntryFor c.nextCallId
          ((c.toolRunner.execute outcome t0 t1).1)) =
        ((c.toolRunner.execute outcome t0 t1).1).success ∧
      isToolErrorEntry (terminalEntryFor c.nextCallId
          ((c.toolRunner.execute outcome t0 t1).1)) =
        !((c.toolRunner.execute outcome t0 t1).1).success) ∧
    ((s.getToolByName toolName) = Option.none →
      (c.executeToolRun toolName args outcome t0 t1) =
        (Except.error (SimError.notFound toolName), c)) := by
  constructor
  · intro htool
    obtain ⟨tool, htool1⟩ := Option.isSome_iff_exists.mp htool
    have h1 := terminalEntryFor_spec c.nextCallId
      ((c.toolRunner.execute outcome t0 t1).1)
    refine ⟨?_, ?_, h1.1, h1.2.1, h1.2.2⟩ <;>
      simp [SimulationController.executeToolRun, hs, ha, htool1,
        List.append_assoc]
  · intro htool
    simp [SimulationController.executeToolRun, hs, ha, htool]

/-- Witness for C2 at a concrete ACTIVE controller: a resolvable tool
and an unresolvable one. -/
theorem C2_execute_tool_witness :
    ((demoActiveCtrl.executeToolRun "add" []
        (ProviderOutcome.normal (PyVal.int 5)) 10 25).1 =
      Except.ok ((demoActiveCtrl.toolRunner.execute
        (ProviderOutcome.normal (PyVal.int 5)) 10 25).1) ∧
     ((demoActiveCtrl.executeToolRun "add" []
        (ProviderOutcome.normal (PyVal.int 5)) 10 25).2).session =
      Option.some { demoActiveSession with history :=
        demoActiveSession.history ++
          [HistoryEntry.toolCall "add" [] demoActiveCtrl.nextCallId,
           terminalEntryFor demoActiveCtrl.nextCallId
             ((demoActiveCtrl.toolRunner.execute
               (ProviderOutcome.normal (PyVal.int 5)) 10 25).1)] }) ∧
    (demoActiveCtrl.executeToolRun "missing_tool" []
        (ProviderOutcome.normal (PyVal.int 5)) 10 25) =
      (Except.error (SimError.notFound "missing_tool"), demoActiveCtrl) := by
  have h1 := (C2_execute_tool demoActiveCtrl demoActiveSession "add" []
    (ProviderOutcome.normal (PyVal.int 5)) 10 25 rfl rfl).1 (by rfl)
  have h2 := (C2_execute_tool demoActiveCtrl demoActiveSession "missing_tool" []
    (ProviderOutcome.normal (PyVal.int 5)) 10 25 rfl rfl).2 rfl
  exact ⟨⟨h1.1, h1.2.1⟩, h2⟩

/-- C1 counterexample: select_agent checks the agent-name lookup before
the state check, so calling it with an unknown agent name on a session
in AWAITING_QUERY — a state from which select_agent is not valid —
fails with NotFound, not with the StateViolation the claim prescribes
(the session is still left unchanged). -/
theorem C1_counterexample :
    (demoAwaitingCtrl.selectAgentRun "ghost").1 =
      Except.error (SimError.notFound "ghost") ∧
    (demoAwaitingCtrl.selectAgentRun "ghost").1 ≠
      Except.error (SimError.stateViolation SessionState.selectingAgent
        SessionState.awaitingQuery) ∧
    (demoAwaitingCtrl.selectAgentRun "ghost").2 = demoAwaitingCtrl := by
  refine ⟨rfl, ?_, rfl⟩
  intro h
  rw [show (demoAwaitingCtrl.selectAgentRun "ghost").1 =
    Except.error (SimError.notFound "ghost") from rfl] at h
  exact absurd (Except.error.inj h) (by simp)

/-- C1 amended: every operation attempted from a state in which it is
not valid fails and returns the controller — hence the session's state
and history — exactly unchanged; the error is a StateViolation naming
the required and actual states, except that select_agent with an agent
name absent from the registry fails with NotFound even when the state
is also invalid (the name lookup precedes the state check). -/
theorem C1_invalid_state_rejected (c : SimulationController)
    (s : SimulationSession) (hs : c.session = Option.some s)
    (name q resp ts : String) (tN now t0 t1 : Nat)
    (args : List (String × PyVal)) (outcome : ProviderOutcome) :
    (s.state ≠ SessionState.selectingAgent →
      c.selectAgentRun name =
        (Except.error (match c.agents.find? (fun p => p.1 == name) with
          | Option.none => SimError.notFound name
          | Option.some _ =>
              SimError.stateViolation SessionState.selectingAgent s.state),
         c)) ∧
    (s.state ≠ SessionState.awaitingQuery →
      c.startSessionRun q tN =
        (Except.error
          (SimError.stateViolation SessionState.awaitingQuery s.state), c)) ∧
    (s.state ≠ SessionState.active →
      c.executeToolRun name args outcome t0 t1 =
        (Except.error (SimError.stateViolation SessionState.active s.state),
         c)) ∧
    (s.state ≠ SessionState.active →
      c.submitFinalResponseRun resp =
        (Except.error (SimError.stateViolation SessionState.active s.state),
         c)) ∧
    (s.state ≠ SessionState.completed →
      c.exportTraceRun ts now =
        (Except.error
          (SimError.stateViolation SessionState.completed s.state), c)) := by
  refine ⟨?_, ?_, ?_, ?_, ?_⟩
  · intro h
    cases hf : c.agents.find? (fun p => p.1 == name) with
    | none => simp [SimulationController.selectAgentRun, hs, hf]
    | some p =>
        simp [SimulationController.selectAgentRun, hs, hf,
          SimulationSession.selectAgent, h]
  · intro h
    simp [SimulationController.startSessionRun, hs, h]
  · intro h
    simp [SimulationController.executeToolRun, hs, h]
  · intro h
    simp [SimulationController.submitFinalResponseRun, hs, h]
  · intro h
    simp [SimulationController.exportTraceRun, hs, h]

/-- Witness for C1 at a concrete ACTIVE controller (from which
select_agent, start_session and export_trace are all invalid). -/
theorem C1_invalid_state_rejected_witness :
    (SessionState.active ≠ SessionState.selectingAgent →
      demoActiveCtrl.selectAgentRun "ghost" =
        (Except.error (match demoActiveCtrl.agents.find?
            (fun p => p.1 == "ghost") with
          | Option.none => SimError.notFound "ghost"
          | Option.some _ =>
              SimError.stateViolation SessionState.selectingAgent
                SessionState.active), demoActiveCtrl)) ∧
    (SessionState.active ≠ SessionState.awaitingQuery →
      demoActiveCtrl.startSessionRun "q" 0 =
        (Except.error (SimError.stateViolation SessionState.awaitingQuery
          SessionState.active), demoActiveCtrl)) ∧
    (SessionState.active ≠ SessionState.active →
      demoActiveCtrl.executeToolRun "ghost" [] ProviderOutcome.cancelled 0 0 =
        (Except.error (SimError.stateViolation SessionState.active
          SessionState.active), demoActiveCtrl)) ∧
    (SessionState.active ≠ SessionState.active →
      demoActiveCtrl.submitFinalResponseRun "r" =
        (Except.error (SimError.stateViolation SessionState.active
          SessionState.active), demoActiveCtrl)) ∧
    (SessionState.active ≠ SessionState.completed →
      demoActiveCtrl.exportTraceRun "TS" 0 =
        (Except.error (SimError.stateViolation SessionState.completed
          SessionState.active), demoActiveCtrl)) :=
  C1_invalid_state_rejected demoActiveCtrl demoActiveSession rfl
    "ghost" "q" "r" "TS" 0 0 0 0 [] ProviderOutcome.cancelled

/-- An entry with no call_id at all is neither a ToolCall nor terminal. -/
theorem anyCallId?_none_split (e : HistoryEntry)
    (h : anyCallId? e = Option.none) :
    toolCallId? e = Option.none ∧ terminalCallId? e = Option.none := by
  cases e <;> simp [anyCallId?, toolCallId?, terminalCallId?] at h ⊢

/-- A ToolCall id is a call_id. -/
theorem toolCallId?_any (e : HistoryEntry) (k : Nat)
    (h : toolCallId? e = Option.some k) : anyCallId? e = Option.some k := by
  cases e <;> simp [anyCallId?, toolCallId?] at h ⊢ <;> exact h

/-- A terminal id is a call_id. -/
theorem terminalCallId?_any (e : HistoryEntry) (k : Nat)
    (h : terminalCallId? e = Option.some k) : anyCallId? e = Option.some k := by
  cases e <;> simp [anyCallId?, terminalCallId?] at h ⊢ <;> exact h

/-- The terminal entry appended by the controller is never a ToolCall
and always carries the minted call_id. -/
theorem terminalEntryFor_ids (k : Nat) (er : ExecutionResult) :
    toolCallId? (terminalEntryFor k er) = Option.none ∧
    anyCallId? (terminalEntryFor k er) = Option.some k := by
  cases hsucc : er.success <;>
    simp [terminalEntryFor, hsucc, toolCallId?, anyCallId?]

/-- Decomposition of a one-element append: a split of h ++ [x] either
splits h, or cuts exactly at x. -/
theorem append_singleton_split {α : Type} (h : List α) (x : α)
    (pre : List α) (e : α) (post : List α)
    (heq : h ++ [x] = pre ++ e :: post) :
    (∃ post1, h = pre ++ e :: post1) ∨ (pre = h ∧ e = x ∧ post = []) := by
  rcases List.eq_nil_or_concat post with rfl | ⟨q, y, rfl⟩
  · have := List.append_inj' heq (by rfl)
    exact Or.inr ⟨this.1.symm, (List.cons.inj this.2).1.symm, rfl⟩
  · rw [List.concat_eq_append] at heq
    have heq2 : h ++ [x] = (pre ++ e :: q) ++ [y] := by
      rw [heq]; simp
    have := List.append_inj' heq2 (by rfl)
    exact Or.inl ⟨q, this.1⟩

/-- The empty history satisfies the invariant at any counter. -/
theorem histInv_nil (n : Nat) : HistInv [] n := by
  refine ⟨?_, ?_, ?_, ?_⟩
  · intro e he; exact absurd he (List.not_mem_nil e)
  · intro k; simp [countToolCallsWith]
  · intro k; simp [countTerminalsWith]
  · intro pre e post k heq
    exact absurd heq.symm (by simp)

/-- The invariant is monotone in the counter. -/
theorem histInv_mono (h : List HistoryEntry) (n m : Nat) (hnm : n ≤ m)
    (hi : HistInv h n) : HistInv h m :=
  ⟨fun e he k hk => lt_of_lt_of_le (hi.1 e he k hk) hnm,
   hi.2.1, hi.2.2.1, hi.2.2.2⟩

/-- Appending an entry with no call_id preserves the invariant. -/
theorem histInv_append_plain (h : List HistoryEntry) (n : Nat)
    (x : HistoryEntry) (hx : anyCallId? x = Option.none)
    (hi : HistInv h n) : HistInv (h ++ [x]) n := by
  obtain ⟨hxc, hxt⟩ := anyCallId?_none_split x hx
  obtain ⟨A, B, C, D⟩ := hi
  refine ⟨?_, ?_, ?_, ?_⟩
  · intro e he k hk
    rcases List.mem_append.mp he with h1 | h2
    · exact A e h1 k hk
    · have hex : e = x := by simpa using h2
      rw [hex, hx] at hk
      exact absurd hk (by simp)
  · intro k
    rw [countToolCallsWith, List.countP_append]
    have h0 : List.countP (fun e => toolCallId? e == Option.some k) [x] = 0 := by
      simp [List.countP_cons, hxc]
    rw [h0]
    simpa using B k
  · intro k
    rw [countTerminalsWith, List.countP_append]
    have h0 : List.countP (fun e => terminalCallId? e == Option.some k) [x] = 0 := by
      simp [List.countP_cons, hxt]
    rw [h0]
    simpa using C k
  · intro pre e post k heq ht
    rcases append_singleton_split h x pre e post heq with ⟨post1, h1⟩ |
      ⟨hpre, hex, hpost⟩
    · exact D pre e post1 k h1 ht
    · rw [hex, hxt] at ht
      exact absurd ht (by simp)

/-- No entry of the history mentions the not-yet-minted id. -/
theorem histInv_fresh (h : List HistoryEntry) (n : Nat) (hi : HistInv h n) :
    countToolCallsWith h n = 0 ∧ countTerminalsWith h n = 0 := by
  constructor
  · rw [countToolCallsWith, List.countP_eq_zero]
    intro e he hp
    have hk : toolCallId? e = Option.some n := by simpa using hp
    exact absurd (hi.1 e he n (toolCallId?_any e n hk)) (Nat.lt_irrefl n)
  · rw [countTerminalsWith, List.countP_eq_zero]
    intro e he hp
    have hk : terminalCallId? e = Option.some n := by simpa using hp
    exact absurd (hi.1 e he n (terminalCallId?_any e n hk)) (Nat.lt_irrefl n)

/-- Appending the freshly minted ToolCall and its terminal entry takes
the invariant from counter n to counter n + 1. -/
theorem histInv_append_pair (h : List HistoryEntry) (n : Nat) (nm : String)
    (args : List (String × PyVal)) (er : ExecutionResult)
    (hi : HistInv h n) :
    HistInv (h ++ [HistoryEntry.toolCall nm args n, terminalEntryFor n er])
      (n + 1) := by
  obtain ⟨hcall0, hterm0⟩ := histInv_fresh h n hi
  obtain ⟨htc, hta⟩ := terminalEntryFor_ids n er
  have htt := (terminalEntryFor_spec n er).1
  have hc1 : toolCallId? (HistoryEntry.toolCall nm args n) = Option.some n := rfl
  have hct1 : terminalCallId? (HistoryEntry.toolCall nm args n) = Option.none := rfl
  have hca1 : anyCallId? (HistoryEntry.toolCall nm args n) = Option.some n := rfl
  obtain ⟨A, B, C, D⟩ := hi
  refine ⟨?_, ?_, ?_, ?_⟩
  · intro e he k hk
    rcases List.mem_append.mp he with h1 | h2
    · exact Nat.lt_succ_of_lt (A e h1 k hk)
    · rcases (by simpa using h2 :
          e = HistoryEntry.toolCall nm args n ∨ e = terminalEntryFor n er)
        with hex | hex
      · rw [hex, hca1] at hk
        have hk2 : k = n := by simpa using hk.symm
        rw [hk2]; exact Nat.lt_succ_self n
      · rw [hex, hta] at hk
        have hk2 : k = n := by simpa using hk.symm
        rw [hk2]; exact Nat.lt_succ_self n
  · intro k
    rw [countToolCallsWith, List.countP_append]
    by_cases hkn : k = n
    · rw [hkn]
      have h1 : countToolCallsWith h n = 0 := hcall0
      rw [countToolCallsWith] at h1
      rw [h1]
      simp [List.countP_cons, hc1, htc]
    · have h2 : List.countP (fun e => toolCallId? e == Option.some k)
          [HistoryEntry.toolCall nm args n, terminalEntryFor n er] = 0 := by
        simp [List.countP_cons, hc1, htc]
        intro hnk
        exact absurd hnk.symm hkn
      rw [h2]
      simpa using B k
  · intro k
    rw [countTerminalsWith, List.countP_append]
    by_cases hkn : k = n
    · rw [hkn]
      have h1 : countTerminalsWith h n = 0 := hterm0
      rw [countTerminalsWith] at h1
      rw [h1]
      simp [List.countP_cons, hct1, htt]
    · have h2 : List.countP (fun e => terminalCallId? e == Option.some k)
          [HistoryEntry.toolCall nm args n, terminalEntryFor n er] = 0 := by
        simp [List.countP_cons, hct1, htt]
        intro hnk
        exact absurd hnk.symm hkn
      rw [h2]
      simpa using C k
  · intro pre e post k heq ht
    have heq2 : (h ++ [HistoryEntry.toolCall nm args n]) ++
        [terminalEntryFor n er] = pre ++ e :: post := by
      rw [← heq]; simp
    rcases append_singleton_split _ _ pre e post heq2 with ⟨post1, h1⟩ |
      ⟨hpre, hex, hpost⟩
    · rcases append_singleton_split _ _ pre e post1 h1 with ⟨post2, h2⟩ |
        ⟨hpre2, hex2, hpost2⟩
      · exact D pre e post2 k h2 ht
      · rw [hex2, hct1] at ht
        exact absurd ht (by simp)
    · rw [hex, htt] at ht
      have hkn : n = k := by simpa using ht
      rw [hpre, ← hkn]
      rw [countToolCallsWith, List.countP_append]
      have h1 : countToolCallsWith h n = 0 := hcall0
      rw [countToolCallsWith] at h1
      rw [h1]
      simp [List.countP_cons, hc1]

/-- create_session installs a fresh empty history. -/
theorem ctrlInv_createSession (c : SimulationController) :
    CtrlInv c.createSession := by
  intro s hs
  have hs2 := Option.some.inj hs
  rw [← hs2]
  exact histInv_nil c.nextCallId

/-- select_agent never touches the history. -/
theorem ctrlInv_selectAgent (c : SimulationController) (n : String)
    (hc : CtrlInv c) : CtrlInv (c.selectAgentRun n).2 := by
  cases hcs : c.session with
  | none =>
      have hX : (c.selectAgentRun n).2 = c := by
        simp [SimulationController.selectAgentRun, hcs]
      rw [hX]; exact hc
  | some s0 =>
      cases hf : c.agents.find? (fun p => p.1 == n) with
      | none =>
          have hX : (c.selectAgentRun n).2 = c := by
            simp [SimulationController.selectAgentRun, hcs, hf]
          rw [hX]; exact hc
      | some p =>
          by_cases hst : s0.state = SessionState.selectingAgent
          · have hX : (c.selectAgentRun n).2 = SimulationController.mk c.agents
                (Option.some (SimulationSession.mk s0.sessionId n p.2
                  SessionState.awaitingQuery s0.history s0.startTimestamp))
                c.toolRunner c.nextCallId := by
              simp [SimulationController.selectAgentRun,
                SimulationSession.selectAgent, hcs, hf, hst]
            rw [hX]
            intro s hs
            have hs2 := Option.some.inj hs
            rw [← hs2]
            exact hc s0 hcs
          · have hX : (c.selectAgentRun n).2 = c := by
              simp [SimulationController.selectAgentRun,
                SimulationSession.selectAgent, hcs, hf, hst]
            rw [hX]; exact hc

/-- start_session appends one UserQuery, which carries no call_id. -/
theorem ctrlInv_startSession (c : SimulationController) (q : String)
    (t : Nat) (hc : CtrlInv c) : CtrlInv (c.startSessionRun q t).2 := by
  cases hcs : c.session with
  | none =>
      have hX : (c.startSessionRun q t).2 = c := by
        simp [SimulationController.startSessionRun, hcs]
      rw [hX]; exact hc
  | some s0 =>
      by_cases hst : s0.state = SessionState.awaitingQuery
      · have hX : (c.startSessionRun q t).2 = SimulationController.mk c.agents
            (Option.some (SimulationSession.mk s0.sessionId s0.agentName
              s0.tools SessionState.active
              (s0.history ++ [HistoryEntry.userQuery q]) t))
            c.toolRunner c.nextCallId := by
          simp [SimulationController.startSessionRun,
            SimulationSession.startSession, hcs, hst]
        rw [hX]
        intro s hs
        have hs2 := Option.some.inj hs
        rw [← hs2]
        exact histInv_append_plain s0.history c.nextCallId
          (HistoryEntry.userQuery q) rfl (hc s0 hcs)
      · have hX : (c.startSessionRun q t).2 = c := by
          simp [SimulationController.startSessionRun,
            SimulationSession.startSession, hcs, hst]
        rw [hX]; exact hc

/-- execute_tool appends the minted ToolCall and its terminal entry and
advances the counter. -/
theorem ctrlInv_executeTool (c : SimulationController) (nm : String)
    (args : List (String × PyVal)) (outcome : ProviderOutcome)
    (t0 t1 : Nat) (hc : CtrlInv c) :
    CtrlInv (c.executeToolRun nm args outcome t0 t1).2 := by
  cases hcs : c.session with
  | none =>
      have hX : (c.executeToolRun nm args outcome t0 t1).2 = c := by
        simp [SimulationController.executeToolRun, hcs]
      rw [hX]; exact hc
  | some s0 =>
      by_cases hst : s0.state = SessionState.active
      · cases htool : s0.getToolByName nm with
        | none =>
            have hX : (c.executeToolRun nm args outcome t0 t1).2 = c := by
              simp [SimulationController.executeToolRun, hcs, hst, htool]
            rw [hX]; exact hc
        | some tool =>
            have hX : (c.executeToolRun nm args outcome t0 t1).2 =
                SimulationController.mk c.agents
                  (Option.some (SimulationSession.mk s0.sessionId s0.agentName
                    s0.tools SessionState.active
                    ((s0.history ++ [HistoryEntry.toolCall nm args c.nextCallId])
                      ++ [terminalEntryFor c.nextCallId
                        ((c.toolRunner.execute outcome t0 t1).1)])
                    s0.startTimestamp))
                  ((c.toolRunner.execute outcome t0 t1).2)
                  (c.nextCallId + 1) := by
              simp [SimulationController.executeToolRun, hcs, hst, htool]
            rw [hX]
            intro s hs
            have hs2 := Option.some.inj hs
            rw [← hs2]
            have h1 := histInv_append_pair s0.history c.nextCallId nm args
              ((c.toolRunner.execute outcome t0 t1).1) (hc s0 hcs)
            simpa [List.append_assoc] using h1
      · have hX : (c.executeToolRun nm args outcome t0 t1).2 = c := by
          simp [SimulationController.executeToolRun, hcs, hst]
        rw [hX]; exact hc

/-- submit_final_response appends one FinalResponse, with no call_id. -/
theorem ctrlInv_submitFinalResponse (c : SimulationController)
    (resp : String) (hc : CtrlInv c) :
    CtrlInv (c.submitFinalResponseRun resp).2 := by
  cases hcs : c.session with
  | none =>
      have hX : (c.submitFinalResponseRun resp).2 = c := by
        simp [SimulationController.submitFinalResponseRun, hcs]
      rw [hX]; exact hc
  | some s0 =>
      by_cases hst : s0.state = SessionState.active
      · have hX : (c.submitFinalResponseRun resp).2 =
            SimulationController.mk c.agents
              (Option.some (SimulationSession.mk s0.sessionId s0.agentName
                s0.tools SessionState.completed
                (s0.history ++ [HistoryEntry.finalResponse resp])
                s0.startTimestamp))
              c.toolRunner c.nextCallId := by
          simp [SimulationController.submitFinalResponseRun,
            SimulationSession.completeSession, hcs, hst]
        rw [hX]
        intro s hs
        have hs2 := Option.some.inj hs
        rw [← hs2]
        exact histInv_append_plain s0.history c.nextCallId
          (HistoryEntry.finalResponse resp) rfl (hc s0 hcs)
      · have hX : (c.submitFinalResponseRun resp).2 = c := by
          simp [SimulationController.submitFinalResponseRun,
            SimulationSession.completeSession, hcs, hst]
        rw [hX]; exact hc

/-- export_trace reads the session and never mutates the controller. -/
theorem ctrlInv_exportTrace (c : SimulationController) (ts : String)
    (now : Nat) (hc : CtrlInv c) : CtrlInv (c.exportTraceRun ts now).2 := by
  cases hcs : c.session with
  | none =>
      have hX : (c.exportTraceRun ts now).2 = c := by
        simp [SimulationController.exportTraceRun, hcs]
      rw [hX]; exact hc
  | some s0 =>
      by_cases hst : s0.state = SessionState.completed
      · have hX : (c.exportTraceRun ts now).2 = c := by
          simp [SimulationController.exportTraceRun, hcs, hst]
        rw [hX]; exact hc
      · have hX : (c.exportTraceRun ts now).2 = c := by
          simp [SimulationController.exportTraceRun, hcs, hst]
        rw [hX]; exact hc

/-- One controller call preserves the invariant. -/
theorem ctrlInv_step (c : SimulationController) (op : Op)
    (hc : CtrlInv c) : CtrlInv (stepOp c op) := by
  cases op with
  | createSession => exact ctrlInv_createSession c
  | selectAgent n => exact ctrlInv_selectAgent c n hc
  | startSession q t => exact ctrlInv_startSession c q t hc
  | executeTool nm args outcome t0 t1 =>
      exact ctrlInv_executeTool c nm args outcome t0 t1 hc
  | cancelTool => exact fun s hs => hc s hs
  | submitFinalResponse r => exact ctrlInv_submitFinalResponse c r hc
  | exportTrace ts now => exact ctrlInv_exportTrace c ts now hc

/-- Any sequence of controller calls preserves the invariant. -/
theorem ctrlInv_runOps (ops : List Op) :
    ∀ c : SimulationController, CtrlInv c → CtrlInv (runOps c ops) := by
  induction ops with
  | nil => exact fun c hc => hc
  | cons op rest ih =>
      intro c hc
      exact ih (stepOp c op) (ctrlInv_step c op hc)

/-- The inductive invariant implies the claimed correlation property. -/
theorem histInv_correlation (h : List HistoryEntry) (n : Nat)
    (hi : HistInv h n) : CorrelationOK h := by
  obtain ⟨A, B, C, D⟩ := hi
  refine ⟨D, ?_⟩
  rintro k ⟨ho, he⟩
  rw [hasOutputFor, List.any_eq_true] at ho
  rw [hasErrorFor, List.any_eq_true] at he
  obtain ⟨e1, he1, hp1⟩ := ho
  obtain ⟨e2, he2, hp2⟩ := he
  rw [Bool.and_eq_true] at hp1 hp2
  have hne : e2 ≠ e1 := by
    intro hee
    rw [hee] at hp2
    cases e1 <;> simp [isToolOutputEntry, isToolErrorEntry] at hp1 hp2
  obtain ⟨l1, l2, rfl⟩ := List.append_of_mem he1
  have hsplit : e2 ∈ l1 ∨ e2 ∈ l2 := by
    rcases List.mem_append.mp he2 with hh | hh
    · exact Or.inl hh
    · rcases List.mem_cons.mp hh with hh2 | hh2
      · exact absurd hh2 hne
      · exact Or.inr hh2
  have hcount : 2 ≤ countTerminalsWith (l1 ++ e1 :: l2) k := by
    rw [countTerminalsWith, List.countP_append, List.countP_cons]
    have he1t : (terminalCallId? e1 == Option.some k) = true := hp1.2
    rw [if_pos he1t]
    rcases hsplit with hh | hh
    · have : 0 < l1.countP (fun e => terminalCallId? e == Option.some k) :=
        List.countP_pos_iff.mpr ⟨e2, hh, hp2.2⟩
      omega
    · have : 0 < l2.countP (fun e => terminalCallId? e == Option.some k) :=
        List.countP_pos_iff.mpr ⟨e2, hh, hp2.2⟩
      omega
  exact absurd (C k) (by omega)

/-- C4: in every history reachable by any sequence of controller
operations from a fresh controller, every ToolOutput/ToolError has
exactly one preceding ToolCall with its call_id, and no call_id carries
both a ToolOutput and a ToolError (call_id freshness being supplied by
the minting counter that models uuid4 generation). -/
theorem C4_correlation_invariant (agents : List (String × List Tool))
    (ops : List Op) (s : SimulationSession)
    (hs : (runOps (initController agents) ops).session = Option.some s) :
    CorrelationOK s.history := by
  have h0 : CtrlInv (initController agents) := by
    intro s0 hs0
    exact absurd hs0 (by simp [initController])
  have h1 := ctrlInv_runOps ops (initController agents) h0
  exact histInv_correlation s.history
    (runOps (initController agents) ops).nextCallId (h1 s hs)

/-- Witness for C4: the history reached by the concrete demo run
satisfies the correlation property. -/
theorem C4_correlation_invariant_witness : CorrelationOK demoSession.history :=
  C4_correlation_invariant demoAgents demoOps demoSession rfl

